import Mathlib

/-!
Verification of the Conduit relayer's order-state watch-and-broadcast pipeline.

The repository's checked-in sources contain two revisions of the application
bootstrap (`src/src/app.ts` and the unnamed newer revision of the same file).
The Order Watcher, Persistent Order Store, Broadcast Bus and Connection
Manager modules are referenced from the bootstrap but their implementation
files are not part of the checked-in sources, so those operations are
modelled from the specification; the bootstrap itself (route table, error
handlers, Postgres failure handling, BigNumber configuration, event-stream
wiring) is embedded directly from the two source files.
-/

namespace Conduit

/-! ## Order states (spec section 3) -/

inductive OrderState
  | Open
  | PartiallyFilled
  | Filled
  | Cancelled
  | Expired
  | Invalid
deriving DecidableEq

/-- Filled, Cancelled, Expired and Invalid are terminal (spec section 3). -/
def OrderState.isTerminal : OrderState → Bool
  | .Filled => true
  | .Cancelled => true
  | .Expired => true
  | .Invalid => true
  | .Open => false
  | .PartiallyFilled => false

/-- A stored order row: mutable derived fields plus the set of
`causingEventRef`s already applied (kept for de-duplication). -/
structure StoredOrder where
  state : OrderState
  remainingFillableAmount : Nat
  appliedRefs : List Nat
deriving DecidableEq

/-- An `OrderStateUpdate` record (spec section 3). -/
structure OrderStateUpdate where
  newState : OrderState
  remainingFillableAmount : Nat
  causingEventRef : Nat
deriving DecidableEq

/-- Modelled from the spec: `applyStateUpdate` of the Persistent Order Store
(section 4.2), whose implementation module is not among the checked-in
sources. It succeeds only if the order's current state is non-terminal and
`causingEventRef` has not already been applied; otherwise it is a no-op. -/
def applyStateUpdate (o : StoredOrder) (u : OrderStateUpdate) : StoredOrder :=
  if o.state.isTerminal then o
  else if u.causingEventRef ∈ o.appliedRefs then o
  else
    { state := u.newState
      remainingFillableAmount := u.remainingFillableAmount
      appliedRefs := u.causingEventRef :: o.appliedRefs }

/-- Folding a whole sequence of updates into an order. -/
def applyUpdates (o : StoredOrder) (us : List OrderStateUpdate) : StoredOrder :=
  us.foldl applyStateUpdate o

/-- Reflexive-transitive reachability in the spec's state DAG
(Open to PartiallyFilled to Filled; Open or PartiallyFilled to
Cancelled, Expired or Invalid; no edge out of a terminal state). -/
def reachableState : OrderState → OrderState → Bool
  | .Open, _ => true
  | .PartiallyFilled, .Open => false
  | .PartiallyFilled, _ => true
  | .Filled, .Filled => true
  | .Cancelled, .Cancelled => true
  | .Expired, .Expired => true
  | .Invalid, .Invalid => true
  | _, _ => false

/-- A sequence of updates is Watcher-valid when every update either is
ignored by the store (terminal target or duplicate ref) or moves the state
along the DAG. -/
def validSeq : StoredOrder → List OrderStateUpdate → Prop
  | _, [] => True
  | o, u :: us =>
      (applyStateUpdate o u = o ∨ reachableState o.state u.newState = true) ∧
      validSeq (applyStateUpdate o u) us

lemma reachableState_refl (s : OrderState) : reachableState s s = true := by
  cases s <;> rfl

lemma reachableState_trans {s t u : OrderState}
    (h1 : reachableState s t = true) (h2 : reachableState t u = true) :
    reachableState s u = true := by
  revert h1 h2
  cases s <;> cases t <;> cases u <;> decide

lemma applyStateUpdate_terminal {o : StoredOrder} (h : o.state.isTerminal = true)
    (u : OrderStateUpdate) : applyStateUpdate o u = o := by
  simp [applyStateUpdate, h]

lemma applyUpdates_terminal {o : StoredOrder} (h : o.state.isTerminal = true) :
    ∀ us : List OrderStateUpdate, applyUpdates o us = o := by
  intro us
  induction us with
  | nil => rfl
  | cons u us ih =>
      simp [applyUpdates, applyStateUpdate_terminal h] at ih ⊢
      exact ih

lemma applyUpdates_reachable (o : StoredOrder) (us : List OrderStateUpdate)
    (h : validSeq o us) : reachableState o.state (applyUpdates o us).state = true := by
  induction us generalizing o with
  | nil => exact reachableState_refl _
  | cons u us ih =>
      obtain ⟨h1, h2⟩ := h
      have step : reachableState o.state (applyStateUpdate o u).state = true := by
        rcases h1 with h1 | h1
        · rw [h1]; exact reachableState_refl _
        · by_cases ht : o.state.isTerminal = true
          · rw [applyStateUpdate_terminal ht]; exact reachableState_refl _
          · by_cases hm : u.causingEventRef ∈ o.appliedRefs
            · simp [applyStateUpdate, hm]
              exact reachableState_refl _
            · simp [applyStateUpdate, ht, hm]
              exact h1
      exact reachableState_trans step (ih (applyStateUpdate o u) h2)

/-- Claim C2: applying the same `OrderStateUpdate` (same `causingEventRef`)
twice via `applyStateUpdate` leaves the order in exactly the state produced
by applying it once; the second application is a no-op. -/
theorem applyStateUpdate_idempotent (o : StoredOrder) (u : OrderStateUpdate) :
    applyStateUpdate (applyStateUpdate o u) u = applyStateUpdate o u := by
  by_cases ht : o.state.isTerminal = true
  · rw [applyStateUpdate_terminal ht, applyStateUpdate_terminal ht]
  · by_cases hm : u.causingEventRef ∈ o.appliedRefs
    · have h1 : applyStateUpdate o u = o := by simp [applyStateUpdate, ht, hm]
      rw [h1, h1]
    · have h1 : applyStateUpdate o u =
          { state := u.newState
            remainingFillableAmount := u.remainingFillableAmount
            appliedRefs := u.causingEventRef :: o.appliedRefs } := by
        simp [applyStateUpdate, ht, hm]
      rw [h1]
      by_cases ht2 : u.newState.isTerminal = true
      · exact applyStateUpdate_terminal ht2 u
      · simp [applyStateUpdate, ht2]

/-- Claim C7: no sequence of applied updates changes a terminal order's
state or `remainingFillableAmount`, and any Watcher-valid sequence of
updates only realizes transitions along the spec's state DAG. -/
theorem terminal_states_absorb (o : StoredOrder) (us : List OrderStateUpdate) :
    (o.state.isTerminal = true → applyUpdates o us = o) ∧
    (validSeq o us → reachableState o.state (applyUpdates o us).state = true) :=
  ⟨fun h => applyUpdates_terminal h us, fun h => applyUpdates_reachable o us h⟩

/-- Concrete instantiation of `terminal_states_absorb`: a Filled order is
untouched by a later update that tries to reopen it. -/
theorem terminal_states_absorb_witness :
    applyUpdates ⟨.Filled, 5, []⟩ [⟨.Open, 7, 1⟩] = ⟨.Filled, 5, []⟩ ∧
    reachableState OrderState.Filled (applyUpdates ⟨.Filled, 5, []⟩ [⟨.Open, 7, 1⟩]).state = true :=
  ⟨(terminal_states_absorb ⟨.Filled, 5, []⟩ [⟨.Open, 7, 1⟩]).1 rfl,
   (terminal_states_absorb ⟨.Filled, 5, []⟩ [⟨.Open, 7, 1⟩]).2 ⟨Or.inl (by decide), trivial⟩⟩

/-! ## Order intake and the Watcher's batch contract (spec section 4.1) -/

/-- A signed order as handed to `watchOrderBatch`: the signed terms the
static checks look at, plus the current derived state. -/
structure Order where
  orderHash : Nat
  signatureValid : Bool
  makerTokenAmount : Nat
  takerTokenAmount : Nat
  expirationUnixTimestampSec : Nat
  state : OrderState
deriving DecidableEq

/-- Modelled from the spec: an order already past its expiration time. -/
def isExpired (now : Nat) (o : Order) : Bool :=
  decide (o.expirationUnixTimestampSec ≤ now)

/-- Modelled from the spec: static validation (signature, amounts). -/
def staticValidationOk (o : Order) : Bool :=
  o.signatureValid && decide (0 < o.makerTokenAmount) && decide (0 < o.takerTokenAmount)

inductive WatchError
  | InvalidOrderError
deriving DecidableEq

/-- Modelled from the spec: the per-order outcome of `watchOrderBatch` —
`InvalidOrderError` for an order that is already expired or fails static
validation, acceptance otherwise. -/
def watchOrderResult (now : Nat) (o : Order) : Except WatchError Nat :=
  if isExpired now o || !staticValidationOk o then .error .InvalidOrderError
  else .ok o.orderHash

/-- An order enters the tracked working set when it is accepted and is not
already terminal (the Watcher only tracks non-terminal orders). -/
def watchAccepts (now : Nat) (o : Order) : Bool :=
  !isExpired now o && staticValidationOk o && !o.state.isTerminal

/-- Modelled from the spec: `watchOrderBatch` of the Order Watcher, whose
implementation module is not among the checked-in sources. Orders are
processed one by one; a rejected order does not abort the rest of the batch
(partial success). Returns the tracked hashes and the per-order results. -/
def watchOrderBatch (now : Nat) (tracked : List Nat) :
    List Order → List Nat × List (Except WatchError Nat)
  | [] => (tracked, [])
  | o :: os =>
      let r := watchOrderResult now o
      let tracked1 := if watchAccepts now o then tracked ++ [o.orderHash] else tracked
      let rest := watchOrderBatch now tracked1 os
      (rest.1, r :: rest.2)

lemma watchOrderBatch_closed_form (now : Nat) (orders : List Order) :
    ∀ tracked : List Nat,
      watchOrderBatch now tracked orders =
        (tracked ++ (orders.filter (watchAccepts now)).map Order.orderHash,
         orders.map (watchOrderResult now)) := by
  induction orders with
  | nil => intro tracked; simp [watchOrderBatch]
  | cons o os ih =>
      intro tracked
      by_cases h : watchAccepts now o = true
      · simp [watchOrderBatch, h, ih]
      · simp [watchOrderBatch, h, ih, Bool.eq_false_iff.mpr h, List.filter_cons]

/-! ## BigNumber configuration (both app revisions, module top level) -/

/-- The pair of exponent bounds held by bignumber.js after
`BigNumber.config({ EXPONENTIAL_AT: v })`. -/
structure ExpAtConfig where
  negAt : Int
  posAt : Int
deriving DecidableEq

/-- Embedding of bignumber.js config handling for a single-number
`EXPONENTIAL_AT: v`, which stands for the pair `[-v, v]`. -/
def exponentialAtSingle (v : Int) : ExpAtConfig := { negAt := -v, posAt := v }

/-- Embedding of the module-top-level call
`BigNumber.config({ EXPONENTIAL_AT: 1000 })`
(src/unnamed/part_000 lines 23-25, src/src/app.ts lines 29-31). -/
def appExponentialAt : ExpAtConfig := exponentialAtSingle 1000

inductive RenderStyle
  | fixedPoint
  | exponential
deriving DecidableEq

/-- Embedding of bignumber.js toString for a value of decimal exponent `e`
(the power of ten of the leading digit): exponential when `e` is at or
beneath `negAt` or at or above `posAt`, fixed-point otherwise. -/
def toStringStyle (c : ExpAtConfig) (e : Int) : RenderStyle :=
  if e ≤ c.negAt ∨ c.posAt ≤ e then .exponential else .fixedPoint

/-- The steps the application runs, in source order: the BigNumber
configuration is executed at module load (before `createApp`'s body runs),
then the provider engine is started, Postgres acquired, the order batch
watched and the routes registered (src/unnamed/part_000, src/src/app.ts). -/
inductive InitStep
  | configureBigNumber
  | startProviderEngine
  | connectPostgres
  | watchOrders
  | registerRoutes
deriving DecidableEq

/-- Embedding of the startup order of the two app revisions. -/
def startupSequence : List InitStep :=
  [.configureBigNumber, .startProviderEngine, .connectPostgres, .watchOrders, .registerRoutes]

/-! ## createApp startup (src/unnamed/part_000 lines 27-126, src/src/app.ts lines 33-134) -/

/-- What `createApp` holds onto when it returns successfully. -/
structure ConduitApp where
  trackedOrderHashes : List Nat
  bigNumberExpAt : ExpAtConfig
deriving DecidableEq

/-- Outcomes of the external calls `createApp` makes at startup. -/
structure StartupEnv where
  postgresConnect : Except String Unit
  storeOrders : List Order
  nowSec : Nat

/-- Embedding of `createApp`'s startup control flow: a Postgres connection
failure is logged and rethrown (src/unnamed/part_000 lines 52-80, app.ts
lines 49-71), so no application value is produced; otherwise the orders
returned by `getOrders` are handed to `watchOrderBatch`
(src/unnamed/part_000 lines 85-87, `watchOrderBatch` modelled from the
spec) and the configured application is returned. -/
def createApp (env : StartupEnv) : Except String ConduitApp :=
  match env.postgresConnect with
  | .error e => .error e
  | .ok _ =>
      .ok { trackedOrderHashes := (watchOrderBatch env.nowSec [] env.storeOrders).1
            bigNumberExpAt := appExponentialAt }

/-! ## HTTP routing (src/unnamed/part_000 lines 90-123, src/src/app.ts lines 73-100) -/

inductive HttpMethod
  | GET
  | POST
  | PUT
  | DELETE
deriving DecidableEq

structure HttpRequest where
  method : HttpMethod
  path : String
deriving DecidableEq

/-- Embedding of the `RoutingError` thrown by the not-found middleware:
a message and an optional `status` field. -/
structure RoutingError where
  message : String
  status : Option Nat
deriving DecidableEq

inductive HttpResponse
  | statusOnly (code : Nat)
  | text (code : Nat) (body : String)
  | json (code : Nat) (body : RoutingError)
  | staticFile (path : String)
  | apiRouted (code : Nat)
deriving DecidableEq

/-- Interactions a request handler may have with the rest of the system. -/
inductive AppEffect
  | storeAccess
  | busPublish
deriving DecidableEq

/-- Request-independent surroundings of the route table: the files
`express.static` finds under `/public`, and the requests the mounted
`/api/v0` router handles (its module is not among the checked-in sources;
a router that matches nothing calls `next`, falling through). -/
structure AppEnv where
  publicFiles : List String
  apiRoutes : List HttpRequest
deriving DecidableEq

/-- Embedding of the final error-handling middleware
(src/unnamed/part_000 lines 120-123, app.ts lines 97-100):
`res.status(error.status || 500); res.json({ ...error })`. -/
def errorHandler (e : RoutingError) : HttpResponse :=
  .json (e.status.getD 500) e

/-- Embedding of the not-found middleware (src/unnamed/part_000 lines
114-118, app.ts lines 91-95): a `RoutingError('Not Found')` with
`status = 404` passed to the error handler. -/
def notFoundError : RoutingError := { message := "Not Found", status := some 404 }

/-- Embedding of the middleware and route chain registered by `createApp`,
in registration order (src/unnamed/part_000 lines 90-123): `express.static`
on `/public`, pass-through logging and header middleware, `GET
/healthcheck`, `GET /`, the `/api/v0` router, then the not-found middleware
feeding the error handler. Returns the response together with the effects
the handling had on the store and bus. -/
def handleRequest (env : AppEnv) (req : HttpRequest) : HttpResponse × List AppEffect :=
  if req.path ∈ env.publicFiles then (.staticFile req.path, [])
  else if req.method = .GET ∧ req.path = "/healthcheck" then (.statusOnly 200, [])
  else if req.method = .GET ∧ req.path = "/" then
    (.text 200 "Welcome to the Conduit Relay API", [])
  else if req ∈ env.apiRoutes then (.apiRouted 200, [.storeAccess])
  else (errorHandler notFoundError, [])

/-! ## Broadcast Bus and Connection Manager delivery (spec sections 4.3, 4.4) -/

/-- Per-topic bus state: the last sequence number handed out. -/
structure BusTopicState where
  lastSeq : Nat
deriving DecidableEq

/-- An update as it appears on the bus, tagged with its sequence number. -/
structure PublishedUpdate where
  seq : Nat
  payload : OrderStateUpdate
deriving DecidableEq

/-- Modelled from the spec: `publish` assigns the next `sequenceNumber` for
the topic at the moment of publish (section 4.3); the Broadcast Bus module
is not among the checked-in sources. -/
def publish (st : BusTopicState) (u : OrderStateUpdate) : BusTopicState × PublishedUpdate :=
  ({ lastSeq := st.lastSeq + 1 }, { seq := st.lastSeq + 1, payload := u })

/-- Publishing a whole list of updates on one topic, in order. -/
def publishAll (st : BusTopicState) : List OrderStateUpdate → BusTopicState × List PublishedUpdate
  | [] => (st, [])
  | u :: us =>
      let p := publish st u
      let rest := publishAll p.1 us
      (rest.1, p.2 :: rest.2)

/-- A list of sequence numbers is gap-free and strictly increasing,
starting right after `prev`. -/
def gapFree : Nat → List Nat → Bool
  | _, [] => true
  | prev, s :: rest => decide (s = prev + 1) && gapFree s rest

/-- Messages sent to a subscribed client. -/
inductive WireMsg
  | update (p : PublishedUpdate)
  | resync (snapshotSeq : Nat)
deriving DecidableEq

/-- Modelled from the spec: the Connection Manager's snapshot+delta
delivery loop for one subscriber (section 4.4). `lastSeq` is the sequence
number of the snapshot (or of the last delivered update): bus updates at
or below it are dropped, the contiguous next update is delivered, and on a
gap a resync with a fresh snapshot is issued instead of delivering the
gap-crossing update. -/
def fanout (lastSeq : Nat) : List PublishedUpdate → List WireMsg
  | [] => []
  | p :: ps =>
      if p.seq ≤ lastSeq then fanout lastSeq ps
      else if p.seq = lastSeq + 1 then .update p :: fanout p.seq ps
      else .resync p.seq :: fanout p.seq ps

/-- A wire stream is continuity-correct after a snapshot at `last`: every
delivered update carries exactly the next sequence number, and a resync
resets the baseline before anything non-contiguous is delivered. -/
def contiguousDelivery : Nat → List WireMsg → Bool
  | _, [] => true
  | last, .update p :: ms => decide (p.seq = last + 1) && contiguousDelivery p.seq ms
  | _, .resync s :: ms => contiguousDelivery s ms

lemma publishAll_seqs (us : List OrderStateUpdate) :
    ∀ st : BusTopicState,
      (publishAll st us).2.map PublishedUpdate.seq = List.range' (st.lastSeq + 1) us.length := by
  induction us with
  | nil => intro st; simp [publishAll]
  | cons u us ih =>
      intro st
      simp [publishAll, publish, ih, List.range'_succ]

lemma gapFree_range' (n : Nat) : ∀ a : Nat, gapFree a (List.range' (a + 1) n) = true := by
  induction n with
  | zero => intro a; simp [List.range', gapFree]
  | succ n ih =>
      intro a
      simp [List.range'_succ, gapFree]
      exact ih (a + 1)

lemma fanout_contiguous (ps : List PublishedUpdate) :
    ∀ s : Nat, contiguousDelivery s (fanout s ps) = true := by
  induction ps with
  | nil => intro s; simp [fanout, contiguousDelivery]
  | cons p ps ih =>
      intro s
      by_cases h1 : p.seq ≤ s
      · simpa [fanout, h1] using ih s
      · by_cases h2 : p.seq = s + 1
        · simp [fanout, h1, h2, contiguousDelivery]
          simpa [h2] using ih (s + 1)
        · simp [fanout, h1, h2, contiguousDelivery]
          exact ih p.seq

lemma fanout_lossless (us : List OrderStateUpdate) :
    ∀ s : Nat, fanout s (publishAll ⟨s⟩ us).2 = ((publishAll ⟨s⟩ us).2).map WireMsg.update := by
  induction us with
  | nil => intro s; simp [publishAll, fanout]
  | cons u us ih =>
      intro s
      simp [publishAll, publish, fanout]
      exact ih (s + 1)

/-- Claim C3: sequence numbers of successfully published updates within a
topic are gap-free and strictly increasing; a subscriber's delivered stream
after a snapshot at S is exactly S+1, S+2, ... (the lossless case delivers
every published update, with no resync), and whenever a gap would be
crossed a resync is issued before the gap-crossing update is delivered
(continuity-correctness of `fanout` on arbitrary bus streams). -/
theorem sequence_numbers_gapfree_and_delivery_contiguous :
    (∀ (st : BusTopicState) (us : List OrderStateUpdate),
        gapFree st.lastSeq ((publishAll st us).2.map PublishedUpdate.seq) = true) ∧
    (∀ (s : Nat) (us : List OrderStateUpdate),
        fanout s (publishAll ⟨s⟩ us).2 = ((publishAll ⟨s⟩ us).2).map WireMsg.update) ∧
    (∀ (s : Nat) (ps : List PublishedUpdate),
        contiguousDelivery s (fanout s ps) = true) := by
  refine ⟨fun st us => ?_, fun s us => fanout_lossless us s, fun s ps => fanout_contiguous ps s⟩
  rw [publishAll_seqs]
  exact gapFree_range' us.length st.lastSeq

/-! ## Reorg retraction handling (spec section 4.1) -/

/-- A canonical-chain event affecting one order. -/
inductive ChainEvent
  | fill (causingEventRef : Nat) (filledAmount : Nat)
  | cancel (causingEventRef : Nat)
deriving DecidableEq

def ChainEvent.ref : ChainEvent → Nat
  | .fill r _ => r
  | .cancel r => r

/-- The derived view of an order: state plus remaining fillable amount. -/
structure OrderView where
  state : OrderState
  remainingFillableAmount : Nat
deriving DecidableEq

/-- Modelled from the spec: the Watcher's recomputation rule for one chain
event — a fill debits the remaining fillable amount and yields
PartiallyFilled or Filled, a cancel ends the order; terminal states do not
change. -/
def applyChainEvent (o : OrderView) : ChainEvent → OrderView
  | .fill _ amt =>
      if o.state.isTerminal then o
      else
        let rem := o.remainingFillableAmount - amt
        { state := if rem = 0 then .Filled else .PartiallyFilled
          remainingFillableAmount := rem }
  | .cancel _ =>
      if o.state.isTerminal then o else { o with state := .Cancelled }

/-- Recomputing an order's view from an initial view and a chain history. -/
def deriveOrderState (initial : OrderView) (history : List ChainEvent) : OrderView :=
  history.foldl applyChainEvent initial

/-- The Watcher's record for one tracked order: the order's initial view
and the observed events its persisted state is derived from. -/
structure WatchedOrder where
  initial : OrderView
  history : List ChainEvent
deriving DecidableEq

/-- The state the Watcher currently derives (and persists) for an order. -/
def WatchedOrder.current (w : WatchedOrder) : OrderView :=
  deriveOrderState w.initial w.history

/-- Modelled from the spec: reorg handling (section 4.1) — when the Event
Source retracts a previously observed event, the Watcher drops it from the
order's history, recomputes the order's state from the remaining canonical
chain data, and emits a fresh `OrderStateUpdate` carrying the corrected
state (keyed by the retraction's event reference). -/
def handleRetraction (w : WatchedOrder) (retractedRef : Nat) :
    WatchedOrder × OrderStateUpdate :=
  let canonical := w.history.filter (fun e => decide (e.ref ≠ retractedRef))
  let st := deriveOrderState w.initial canonical
  ({ initial := w.initial, history := canonical },
   { newState := st.state
     remainingFillableAmount := st.remainingFillableAmount
     causingEventRef := retractedRef })

/-- Claim C4: after a retraction the persisted state is recomputed from
canonical chain data only — the retracted reference no longer occurs in the
history the state is derived from — and the emitted `OrderStateUpdate`
carries exactly that corrected state; if the retracted event was never
observed, the order's derived state is unchanged. -/
theorem handleRetraction_recomputes_from_canonical (w : WatchedOrder) (r : Nat) :
    ((handleRetraction w r).1.current =
        deriveOrderState w.initial (w.history.filter (fun e => decide (e.ref ≠ r)))) ∧
    (∀ e ∈ (handleRetraction w r).1.history, e.ref ≠ r) ∧
    ((handleRetraction w r).2.newState = (handleRetraction w r).1.current.state ∧
      (handleRetraction w r).2.remainingFillableAmount =
        (handleRetraction w r).1.current.remainingFillableAmount) ∧
    ((∀ e ∈ w.history, e.ref ≠ r) → (handleRetraction w r).1.current = w.current) := by
  refine ⟨rfl, ?_, ⟨rfl, rfl⟩, ?_⟩
  · intro e he
    have := List.of_mem_filter he
    simpa using this
  · intro h
    have hfil : w.history.filter (fun e => decide (e.ref ≠ r)) = w.history :=
      List.filter_eq_self.mpr (fun e he => by simpa using h e he)
    show deriveOrderState w.initial (w.history.filter (fun e => decide (e.ref ≠ r))) = w.current
    rw [hfil]
    rfl

/-- Concrete instantiation of `handleRetraction_recomputes_from_canonical`:
retracting the cancel event of a cancelled order re-derives it from its
remaining fill history (scenario E of the spec), and retracting an unseen
reference leaves a watched order's state unchanged. -/
theorem handleRetraction_recomputes_from_canonical_witness :
    (handleRetraction ⟨⟨.Open, 100⟩, [.fill 1 40, .cancel 2]⟩ 2).1.current =
      ⟨.PartiallyFilled, 60⟩ ∧
    (handleRetraction ⟨⟨.Open, 100⟩, [.fill 1 40]⟩ 7).1.current =
      WatchedOrder.current ⟨⟨.Open, 100⟩, [.fill 1 40]⟩ := by
  constructor
  · have h := (handleRetraction_recomputes_from_canonical
      ⟨⟨.Open, 100⟩, [.fill 1 40, .cancel 2]⟩ 2).1
    rw [h]
    decide
  · exact (handleRetraction_recomputes_from_canonical
      ⟨⟨.Open, 100⟩, [.fill 1 40]⟩ 7).2.2.2 (by decide)

/-! ## Event-stream wiring of src/src/app.ts (lines 87-131) -/

/-- Downstream consumers an event could be piped to from the
`zeroExStreamWrapper` PassThrough stream. -/
inductive PipeSink
  | relayDatabase
  | webSocketFeed
deriving DecidableEq

/-- A blockchain log event as tagged by the subscription callbacks. -/
structure BlockchainLogEvent where
  event : String
  typeTag : String
deriving DecidableEq

/-- State of the `zeroExStreamWrapper` PassThrough stream: what has been
pushed into it and which consumers are piped to it. -/
structure StreamWrapperState where
  buffered : List BlockchainLogEvent
  pipes : List PipeSink
deriving DecidableEq

/-- Embedding of src/src/app.ts: the `zeroExStreamWrapper` PassThrough is
created (lines 102-105) and nothing is ever piped to it — the
`zeroExStreamWrapper.pipe(relayDatabase)` call (line 127) and the
websocket feed wiring (lines 88-89) are commented out. -/
def zeroExStreamWrapperInit : StreamWrapperState := { buffered := [], pipes := [] }

/-- Embedding of the `subscribeAsync` callbacks for LogFill and LogCancel
(src/src/app.ts lines 106-124): the event is tagged with
`Blockchain.` ++ its name and pushed into the wrapper stream. -/
def logEventCallback (st : StreamWrapperState) (ev : String) : StreamWrapperState :=
  { st with
      buffered := st.buffered ++ [{ event := ev, typeTag := String.append "Blockchain." ev }] }

/-- The event deliveries that leave the wrapper stream: each buffered event
goes to each attached pipe. -/
def pipedDeliveries (st : StreamWrapperState) : List (PipeSink × BlockchainLogEvent) :=
  st.pipes.foldr (fun p acc => st.buffered.map (fun e => (p, e)) ++ acc) []

/-- Claim C1, evaluated on src/src/app.ts at a concrete LogFill and a
concrete LogCancel event: the events are received and buffered by the
subscription callbacks, but they reach no downstream consumer — in
particular no write to the Persistent Order Store and no fan-out to any
client ever happens, because no pipe is attached to the wrapper. -/
theorem appTs_log_events_reach_no_sink :
    pipedDeliveries (logEventCallback zeroExStreamWrapperInit "LogFill") = [] ∧
    pipedDeliveries (logEventCallback (logEventCallback zeroExStreamWrapperInit "LogFill")
      "LogCancel") = [] ∧
    (logEventCallback zeroExStreamWrapperInit "LogFill").buffered ≠ [] ∧
    PipeSink.relayDatabase ∉ (logEventCallback zeroExStreamWrapperInit "LogFill").pipes := by
  refine ⟨rfl, rfl, ?_, ?_⟩
  · simp [logEventCallback, zeroExStreamWrapperInit]
  · simp [logEventCallback, zeroExStreamWrapperInit]

/-! ## Claim theorems about intake, startup and routing -/

/-- Claim C5: `watchOrderBatch` processes its batch with partial success —
the per-order results reject exactly the orders that are expired or fail
static validation with `InvalidOrderError`, every other order is accepted,
and the tracked working set collects exactly the accepted non-terminal
orders; in particular the startup call inside `createApp`, fed with all
orders returned by `getOrders`, tracks exactly the non-terminal valid
ones. -/
theorem watchOrderBatch_partial_success (now : Nat) (orders : List Order) :
    (watchOrderBatch now [] orders =
      ((orders.filter (watchAccepts now)).map Order.orderHash,
       orders.map (watchOrderResult now))) ∧
    (∀ (env : StartupEnv) (app : ConduitApp), createApp env = Except.ok app →
      app.trackedOrderHashes =
        (env.storeOrders.filter (watchAccepts env.nowSec)).map Order.orderHash) := by
  constructor
  · simpa using watchOrderBatch_closed_form now orders []
  · intro env app h
    cases hc : env.postgresConnect with
    | error e => simp [createApp, hc] at h
    | ok u =>
        cases u
        simp [createApp, hc] at h
        rw [← h]
        simpa using congrArg Prod.fst (watchOrderBatch_closed_form env.nowSec env.storeOrders [])

/-- Concrete instantiation of `watchOrderBatch_partial_success`: a batch
with an expired order (hash 1), an order with an invalid signature
(hash 2) and a valid open order (hash 3) leads to a started app tracking
exactly hash 3. -/
theorem watchOrderBatch_partial_success_witness :
    (ConduitApp.mk [3] appExponentialAt).trackedOrderHashes =
      (([⟨1, true, 10, 10, 40, .Open⟩, ⟨2, false, 10, 10, 100, .Open⟩,
          ⟨3, true, 10, 10, 100, .Open⟩] : List Order).filter
          (watchAccepts 50)).map Order.orderHash :=
  (watchOrderBatch_partial_success 50
      [⟨1, true, 10, 10, 40, .Open⟩, ⟨2, false, 10, 10, 100, .Open⟩,
       ⟨3, true, 10, 10, 100, .Open⟩]).2
    ⟨Except.ok (), [⟨1, true, 10, 10, 40, .Open⟩, ⟨2, false, 10, 10, 100, .Open⟩,
       ⟨3, true, 10, 10, 100, .Open⟩], 50⟩
    ⟨[3], appExponentialAt⟩ rfl

/-- A client connection as the Connection Manager sees it during a
broadcast: its identifier and whether its transport currently accepts
delivery. -/
structure ClientConnection where
  connId : Nat
  transportUp : Bool
deriving DecidableEq

/-- Modelled from the spec: the Connection Manager's fan-out of one update
over the current connections (sections 4.4, 5 and 7, the module is not
among the checked-in sources) — a failed delivery is a non-fatal, logged
condition that closes and cleans up only the affected connection and never
blocks or fails the broadcast to the remaining connections. Returns the
connection ids the update was delivered to and the ids closed because
their transport failed. -/
def broadcastToConnections : List ClientConnection → List Nat × List Nat
  | [] => ([], [])
  | c :: cs =>
      let rest := broadcastToConnections cs
      if c.transportUp then (c.connId :: rest.1, rest.2)
      else (rest.1, c.connId :: rest.2)

lemma broadcast_serves_all (cs : List ClientConnection) :
    ∀ c ∈ cs,
      (c.transportUp = true → c.connId ∈ (broadcastToConnections cs).1) ∧
      (c.transportUp = false → c.connId ∈ (broadcastToConnections cs).2) := by
  induction cs with
  | nil => intro c hc; cases hc
  | cons d ds ih =>
      intro c hc
      rcases List.mem_cons.mp hc with h | h
      · subst h
        constructor
        · intro hup; simp [broadcastToConnections, hup]
        · intro hdown; simp [broadcastToConnections, hdown]
      · constructor
        · intro hup
          have hmem := (ih c h).1 hup
          by_cases hd : d.transportUp <;> simp [broadcastToConnections, hd, hmem]
        · intro hdown
          have hmem := (ih c h).2 hdown
          by_cases hd : d.transportUp <;> simp [broadcastToConnections, hd, hmem]

lemma broadcast_skips_failed (c : ClientConnection) (cs : List ClientConnection)
    (h : c.transportUp = false) :
    (broadcastToConnections (c :: cs)).1 = (broadcastToConnections cs).1 := by
  simp [broadcastToConnections, h]

/-- Claim C6: when the Postgres pool connection fails at startup,
`createApp` rethrows the error and never returns an application, halting
ingestion; no single order's or connection's failure terminates the
pipeline — with the persistence layer acquired, `createApp` returns an
application whatever the fetched orders look like, and a broadcast over
connections with failed transports still delivers the update to every live
connection while closing exactly the failed ones, and delivers to the
others precisely what it would deliver were the failed connection absent. -/
theorem createApp_fatal_only_on_postgres_failure (env : StartupEnv) :
    (∀ e : String, env.postgresConnect = Except.error e → createApp env = Except.error e) ∧
    (env.postgresConnect = Except.ok () → ∃ app, createApp env = Except.ok app) ∧
    (∀ (cs : List ClientConnection), ∀ c ∈ cs,
      (c.transportUp = true → c.connId ∈ (broadcastToConnections cs).1) ∧
      (c.transportUp = false → c.connId ∈ (broadcastToConnections cs).2)) ∧
    (∀ (c : ClientConnection) (cs : List ClientConnection), c.transportUp = false →
      (broadcastToConnections (c :: cs)).1 = (broadcastToConnections cs).1) := by
  refine ⟨?_, ?_, fun cs c hc => broadcast_serves_all cs c hc,
    fun c cs h => broadcast_skips_failed c cs h⟩
  · intro e h
    simp [createApp, h]
  · intro h
    refine ⟨⟨(watchOrderBatch env.nowSec [] env.storeOrders).1, appExponentialAt⟩, ?_⟩
    simp [createApp, h]

/-- Concrete instantiation of `createApp_fatal_only_on_postgres_failure`:
a refused connection is rethrown; a successful connection yields an
application even though the only fetched order is expired; broadcasting
over connections 1 (up), 2 (down) and 3 (up) delivers to 1 and 3 and
closes only 2, and connection 2's failure leaves the delivery list exactly
as if 2 were absent. -/
theorem createApp_fatal_only_on_postgres_failure_witness :
    createApp ⟨Except.error "connection refused", [], 0⟩ =
      Except.error "connection refused" ∧
    (∃ app, createApp ⟨Except.ok (), [⟨1, true, 10, 10, 40, .Open⟩], 50⟩ =
      Except.ok app) ∧
    (1 ∈ (broadcastToConnections [⟨1, true⟩, ⟨2, false⟩, ⟨3, true⟩]).1 ∧
      3 ∈ (broadcastToConnections [⟨1, true⟩, ⟨2, false⟩, ⟨3, true⟩]).1 ∧
      2 ∈ (broadcastToConnections [⟨1, true⟩, ⟨2, false⟩, ⟨3, true⟩]).2) ∧
    (broadcastToConnections [⟨2, false⟩, ⟨1, true⟩]).1 =
      (broadcastToConnections [⟨1, true⟩]).1 :=
  ⟨(createApp_fatal_only_on_postgres_failure
      ⟨Except.error "connection refused", [], 0⟩).1 "connection refused" rfl,
   (createApp_fatal_only_on_postgres_failure
      ⟨Except.ok (), [⟨1, true, 10, 10, 40, .Open⟩], 50⟩).2.1 rfl,
   ⟨((createApp_fatal_only_on_postgres_failure ⟨Except.ok (), [], 0⟩).2.2.1
        [⟨1, true⟩, ⟨2, false⟩, ⟨3, true⟩] ⟨1, true⟩ (by simp)).1 rfl,
    ((createApp_fatal_only_on_postgres_failure ⟨Except.ok (), [], 0⟩).2.2.1
        [⟨1, true⟩, ⟨2, false⟩, ⟨3, true⟩] ⟨3, true⟩ (by simp)).1 rfl,
    ((createApp_fatal_only_on_postgres_failure ⟨Except.ok (), [], 0⟩).2.2.1
        [⟨1, true⟩, ⟨2, false⟩, ⟨3, true⟩] ⟨2, false⟩ (by simp)).2 rfl⟩,
   (createApp_fatal_only_on_postgres_failure ⟨Except.ok (), [], 0⟩).2.2.2
      ⟨2, false⟩ [⟨1, true⟩] rfl⟩

/-- Claim C8: a GET request for `/healthcheck` (not shadowed by a static
file of that name) is answered with status 200 by the dedicated handler,
with no effect on any other component. -/
theorem healthcheck_returns_200 (env : AppEnv) (req : HttpRequest)
    (hm : req.method = .GET) (hp : req.path = "/healthcheck")
    (hs : req.path ∉ env.publicFiles) :
    handleRequest env req = (.statusOnly 200, []) := by
  rw [hp] at hs
  simp [handleRequest, hs, hm, hp]

/-- Concrete instantiation of `healthcheck_returns_200`. -/
theorem healthcheck_returns_200_witness :
    handleRequest ⟨[], []⟩ ⟨.GET, "/healthcheck"⟩ = (.statusOnly 200, []) :=
  healthcheck_returns_200 ⟨[], []⟩ ⟨.GET, "/healthcheck"⟩ rfl rfl (by simp)

/-- Claim C9: a request matching no registered route falls through to the
not-found middleware and is answered with the JSON-serialized
`RoutingError('Not Found')` under status 404; any error reaching the final
error handler without a status field is answered with status 500. -/
theorem unmatched_route_404_default_500 (env : AppEnv) (req : HttpRequest)
    (h1 : req.path ∉ env.publicFiles)
    (h2 : ¬(req.method = .GET ∧ req.path = "/healthcheck"))
    (h3 : ¬(req.method = .GET ∧ req.path = "/"))
    (h4 : req ∉ env.apiRoutes) :
    handleRequest env req = (.json 404 notFoundError, []) ∧
    (∀ e : RoutingError, e.status = none → errorHandler e = .json 500 e) := by
  constructor
  · simp [handleRequest, h1, h2, h3, h4, errorHandler, notFoundError]
  · intro e he
    simp [errorHandler, he]

/-- Concrete instantiation of `unmatched_route_404_default_500`. -/
theorem unmatched_route_404_default_500_witness :
    handleRequest ⟨[], []⟩ ⟨.GET, "/nope"⟩ = (.json 404 notFoundError, []) ∧
    errorHandler ⟨"boom", none⟩ = .json 500 ⟨"boom", none⟩ :=
  ⟨(unmatched_route_404_default_500 ⟨[], []⟩ ⟨.GET, "/nope"⟩
      (by simp) (by simp) (by simp) (by simp)).1,
   (unmatched_route_404_default_500 ⟨[], []⟩ ⟨.GET, "/nope"⟩
      (by simp) (by simp) (by simp) (by simp)).2 ⟨"boom", none⟩ rfl⟩

/-- Claim C10: the `BigNumber.config({ EXPONENTIAL_AT: 1000 })` call is the
first step of module evaluation — before Postgres is acquired and before
any order is watched or processed — the configuration every started app
carries is exactly the single-value configuration 1000, and under it every
decimal exponent strictly between -1000 and 1000 (which covers every
amount of magnitude below 10 to the power 1000 and above 10 to the power
-1000) is rendered in fixed-point, non-exponential notation. -/
theorem bigNumber_fixed_point_configured_before_orders :
    (startupSequence.head? = some .configureBigNumber) ∧
    (∀ (env : StartupEnv) (app : ConduitApp), createApp env = Except.ok app →
      app.bigNumberExpAt = exponentialAtSingle 1000) ∧
    (∀ e : Int, appExponentialAt.negAt < e → e < appExponentialAt.posAt →
      toStringStyle appExponentialAt e = .fixedPoint) := by
  refine ⟨rfl, ?_, ?_⟩
  · intro env app h
    cases hc : env.postgresConnect with
    | error e => simp [createApp, hc] at h
    | ok u =>
        cases u
        simp [createApp, hc] at h
        rw [← h]
        rfl
  · intro e h1 h2
    have hx : ¬(e ≤ appExponentialAt.negAt ∨ appExponentialAt.posAt ≤ e) := by
      rintro (h | h) <;> omega
    simp [toStringStyle, hx]

/-- Concrete instantiation of
`bigNumber_fixed_point_configured_before_orders`: the started app carries
the 1000 configuration and an amount with 1000 digits (decimal exponent
999) is rendered fixed-point. -/
theorem bigNumber_fixed_point_configured_before_orders_witness :
    (ConduitApp.mk [] appExponentialAt).bigNumberExpAt = exponentialAtSingle 1000 ∧
    toStringStyle appExponentialAt 999 = .fixedPoint :=
  ⟨bigNumber_fixed_point_configured_before_orders.2.1 ⟨Except.ok (), [], 0⟩
      ⟨[], appExponentialAt⟩ rfl,
   bigNumber_fixed_point_configured_before_orders.2.2 999 (by decide) (by decide)⟩

end Conduit
